import Mathlib

/-!
Verification of the CFF2 subsetter (`src/hb-subset-cff2.cc`) of harfbuzz.

The file shallowly embeds the subsetting core: the three dict-operator
transcoders (`CFF2TopDict_OpSerializer`, `CFF2FontDict_OpSerializer`,
`CFF2PrivateDict_OpSerializer`), the plan builder (`cff2_subset_plan::create`),
the table writer (`_write_cff2`) and the driver (`_hb_subset_cff2`).
Bytes are `Nat`s below 256 collected in lists; machine arithmetic that can
wrap is made explicit with `% 256` style operations in the encoders.

Primitives living in headers that are not part of the sources at hand
(`hb-subset-cff-common-private.hh`, `hb-ot-cff2-table.hh`,
`hb-open-type-private.hh`) are modelled from the specification; each such
definition carries a doc comment starting with `Modelled from the spec:`.
-/

namespace CFF2Subset

/-! ## Operator codes

Operator codes as in `hb-ot-cff-common-private.hh` (two-byte escaped
operators are `12 << 8 | n`). -/

def OpCode_escape : Nat := 12

def OpCode_CharStrings : Nat := 17

def OpCode_Private : Nat := 18

def OpCode_Subrs : Nat := 19

def OpCode_vstore : Nat := 24

def OpCode_shortint : Nat := 28

def OpCode_longint : Nat := 29

def OpCode_FDArray : Nat := OpCode_escape * 256 + 36

def OpCode_FDSelect : Nat := OpCode_escape * 256 + 37

/-- Modelled from the spec: an operator code occupies one byte, except the
escaped (two-byte) operators, which occupy two (`hb` macro `OpCode_Size`). -/
def OpCode_Size (op : Nat) : Nat :=
  if op < 256 then 1 else 2

/-- Modelled from the spec: the byte encoding of an operator code; escaped
operators are written as the escape byte followed by the sub-code. -/
def opEncoding (op : Nat) : List Nat :=
  if op < 256 then [op % 256] else [OpCode_escape, op % 256]

/-! ## Fixed-width integer encodings -/

/-- Big-endian 2-byte encoding (value taken mod 2^16). -/
def encode2 (v : Nat) : List Nat :=
  [v / 256 % 256, v % 256]

/-- Big-endian 4-byte encoding (value taken mod 2^32). -/
def encode4 (v : Nat) : List Nat :=
  [v / 16777216 % 256, v / 65536 % 256, v / 256 % 256, v % 256]

/-- Big-endian `w`-byte encoding, used for index offset arrays. -/
def encodeN (w v : Nat) : List Nat :=
  (List.range w).map (fun i => v / 256 ^ (w - 1 - i) % 256)

/-- Decode a big-endian 2-byte encoding back to a value. -/
def decode2 (bs : List Nat) : Nat :=
  bs.foldl (fun a b => a * 256 + b) 0

/-- `calcOffSize` of `hb-subset-cff-common-private.hh` (not under the sources
at hand). Modelled from the spec: the smallest unsigned byte width that holds
the given value. -/
def calcOffSize (v : Nat) : Nat :=
  if h : v < 256 then 1
  else 1 + calcOffSize (v / 256)
decreasing_by
  exact Nat.div_lt_self (Nat.lt_of_lt_of_le (by norm_num) (Nat.le_of_not_lt h)) (by norm_num)

/-! ## Operator strings and serialization primitives -/

/-- One entry of a parsed dict: the operator code and the original bytes
(operands followed by the operator) as they appear in the source. -/
structure OpStr where
  op : Nat
  str : List Nat
deriving Repr, DecidableEq

/-- `TableInfo` of `hb-subset-cff-common-private.hh`: an (offset, size) pair. -/
structure TableInfo where
  offset : Nat
  size : Nat
deriving Repr, DecidableEq

/-- Modelled from the spec: `copy_opstr` copies an operator's original bytes
verbatim. -/
def copy_opstr (opstr : OpStr) : List Nat :=
  opstr.str

/-- Modelled from the spec: `FontDict::serialize_offset4_op` writes a
fixed-width 32-bit integer operand (long-int prefix plus four bytes) followed
by the operator code. -/
def serialize_offset4_op (op v : Nat) : List Nat :=
  OpCode_longint % 256 :: (encode4 v ++ opEncoding op)

/-- Modelled from the spec: `FontDict::serialize_offset2_op` writes a
fixed-width 16-bit integer operand (short-int prefix plus two bytes) followed
by the operator code. -/
def serialize_offset2_op (op v : Nat) : List Nat :=
  OpCode_shortint % 256 :: (encode2 v ++ opEncoding op)

/-- Modelled from the spec: `UnsizedByteStr::serialize_int2` writes the
short-int prefix byte and a 2-byte big-endian integer. -/
def serialize_int2 (v : Nat) : List Nat :=
  OpCode_shortint % 256 :: encode2 v

/-- Modelled from the spec: `UnsizedByteStr::serialize_int4` writes the
long-int prefix byte and a 4-byte big-endian integer. -/
def serialize_int4 (v : Nat) : List Nat :=
  OpCode_longint % 256 :: encode4 v

/-! ## `CFF2SubTableOffsets` (`hb-subset-cff2.cc` lines 36-50) -/

structure CFF2SubTableOffsets where
  topDictSize : Nat := 0
  varStoreOffset : Nat := 0
  FDSelectInfo : TableInfo := ⟨0, 0⟩
  FDArrayOffset : Nat := 0
  FDArrayOffSize : Nat := 0
  charStringsOffset : Nat := 0
  charStringsOffSize : Nat := 0
  privateDictsOffset : Nat := 0
deriving Repr, DecidableEq

/-! ## The three dict-operator transcoders (`hb-subset-cff2.cc` 52-160) -/

/-- `CFF2TopDict_OpSerializer::serialize`: the four offset-bearing operators
are re-encoded as fixed-width 32-bit operands carrying the planned offsets;
every other operator is copied verbatim. -/
def topDictOpSerialize (opstr : OpStr) (offsets : CFF2SubTableOffsets) : List Nat :=
  if opstr.op = OpCode_vstore then
    serialize_offset4_op opstr.op offsets.varStoreOffset
  else if opstr.op = OpCode_CharStrings then
    serialize_offset4_op opstr.op offsets.charStringsOffset
  else if opstr.op = OpCode_FDArray then
    serialize_offset4_op opstr.op offsets.FDArrayOffset
  else if opstr.op = OpCode_FDSelect then
    serialize_offset4_op opstr.op offsets.FDSelectInfo.offset
  else
    copy_opstr opstr

/-- `CFF2TopDict_OpSerializer::calculate_serialized_size`. -/
def topDictOpSize (opstr : OpStr) : Nat :=
  if opstr.op = OpCode_vstore ∨ opstr.op = OpCode_CharStrings ∨
     opstr.op = OpCode_FDArray ∨ opstr.op = OpCode_FDSelect then
    OpCode_Size OpCode_longint + 4 + OpCode_Size opstr.op
  else
    opstr.str.length

/-- The planned value the top-dict transcoder embeds for each of the four
special operators (the respective `offsets` field, lines 62-72). -/
def topDictSpecialValue (op : Nat) (offsets : CFF2SubTableOffsets) : Nat :=
  if op = OpCode_vstore then offsets.varStoreOffset
  else if op = OpCode_CharStrings then offsets.charStringsOffset
  else if op = OpCode_FDArray then offsets.FDArrayOffset
  else offsets.FDSelectInfo.offset

/-- `CFF2FontDict_OpSerializer::serialize`: the `Private` operator is replaced
by a 2-byte size, a 4-byte offset and the operator code; everything else is a
byte copy. -/
def fontDictOpSerialize (opstr : OpStr) (privDictInfo : TableInfo) : List Nat :=
  if opstr.op = OpCode_Private then
    serialize_int2 privDictInfo.size ++ serialize_int4 privDictInfo.offset ++
      [OpCode_Private % 256]
  else
    copy_opstr opstr

/-- `CFF2FontDict_OpSerializer::calculate_serialized_size`. -/
def fontDictOpSize (opstr : OpStr) : Nat :=
  if opstr.op = OpCode_Private then
    OpCode_Size OpCode_longint + 4 + OpCode_Size OpCode_shortint + 2 +
      OpCode_Size OpCode_Private
  else
    opstr.str.length

/-- `CFF2PrivateDict_OpSerializer::serialize`: the `Subrs` operator is
re-encoded as a fixed-width 16-bit offset; everything else is a byte copy. -/
def privateDictOpSerialize (opstr : OpStr) (subrsOffset : Nat) : List Nat :=
  if opstr.op = OpCode_Subrs then
    serialize_offset2_op OpCode_Subrs subrsOffset
  else
    copy_opstr opstr

/-- `CFF2PrivateDict_OpSerializer::calculate_serialized_size`. -/
def privateDictOpSize (opstr : OpStr) : Nat :=
  if opstr.op = OpCode_Subrs then
    OpCode_Size OpCode_shortint + 2 + OpCode_Size OpCode_Subrs
  else
    opstr.str.length

/-! ## Selector remapper (`hb_plan_subset_cff_fdselect` /
`hb_serialize_cff_fdselect`, declared in `hb-subset-cff-common-private.hh`;
the implementation is not among the sources at hand and is modelled from the
spec, section 4.4). -/

/-- Modelled from the spec: original font-dict indices referenced by the
retained glyphs, in first-seen order; their position in this list is their
remapped index. -/
def seenFds (fds : List Nat) : List Nat :=
  fds.foldl (fun s fd => if fd ∈ s then s else s ++ [fd]) []

/-- Run boundaries of a list: the (position, value) pairs at which the value
differs from its predecessor (the head always starts a run). -/
def runStartsAux : Nat → Option Nat → List Nat → List (Nat × Nat)
  | _, _, [] => []
  | i, prev, x :: xs =>
    if prev = some x then runStartsAux (i + 1) (some x) xs
    else (i, x) :: runStartsAux (i + 1) (some x) xs

def runStarts (l : List Nat) : List (Nat × Nat) :=
  runStartsAux 0 none l

/-- Result record of the selector-remap planning step. -/
structure FdSelectSubsetPlan where
  substFdCount : Nat
  size : Nat
  format : Nat
  firstGlyphs : List Nat
  fdmap : List (Option Nat)
deriving Repr, DecidableEq

/-- The original font-dict index of each retained glyph, via the source
selector. -/
def subsetFds (glyphs : List Nat) (sel : List Nat) : List Nat :=
  glyphs.map (fun g => sel.getD g 0)

/-- The remapped (first-seen-order) font-dict index of each retained glyph. -/
def subsetRemappedFds (glyphs : List Nat) (sel : List Nat) : List Nat :=
  (subsetFds glyphs sel).map (fun fd => (seenFds (subsetFds glyphs sel)).indexOf fd)

/-- Modelled from the spec: the dense per-glyph encoding (format 0): a format
byte followed by one font-dict byte per glyph. -/
def fdselectFormat0Bytes (rs : List Nat) : List Nat :=
  0 :: rs.map (· % 256)

/-- Modelled from the spec: the ranged encoding (format 3): a format byte, a
2-byte range count, one (2-byte first glyph, 1-byte font dict) record per
run, and a 2-byte sentinel glyph count. -/
def fdselectFormat3Bytes (rs : List Nat) (numGlyphs : Nat) : List Nat :=
  3 :: (encode2 (runStarts rs).length ++
    ((runStarts rs).map (fun p => encode2 p.1 ++ [p.2 % 256])).flatten ++
    encode2 numGlyphs)

/-- Modelled from the spec: `hb_plan_subset_cff_fdselect`. For each retained
glyph look up its original font-dict index via the original selector; fail if
any index is outside `[0, fdCount)`; remap indices in first-seen order;
record a breakpoint at each run boundary of the remapped sequence; choose the
more compact of the dense per-glyph encoding (format 0) and the ranged
encoding (format 3); if no font dict was dropped, the remap table is left
empty (no-op). -/
def hb_plan_subset_cff_fdselect (glyphs : List Nat) (fdCount : Nat)
    (sel : List Nat) : Option FdSelectSubsetPlan :=
  if (subsetFds glyphs sel).all (fun fd => fd < fdCount) then
    let seen := seenFds (subsetFds glyphs sel)
    let nb := (runStarts (subsetRemappedFds glyphs sel)).length
    let fmtsz := if 1 + glyphs.length ≤ 5 + 3 * nb
      then (0, 1 + glyphs.length) else (3, 5 + 3 * nb)
    let fdmap := if seen.length = fdCount then []
      else (List.range fdCount).map
        (fun i => if i ∈ seen then some (seen.indexOf i) else none)
    some ⟨seen.length, fmtsz.2, fmtsz.1,
      (runStarts (subsetRemappedFds glyphs sel)).map Prod.fst, fdmap⟩
  else
    none

/-- Modelled from the spec: `hb_serialize_cff_fdselect` emits the re-encoded
selector in the chosen format. -/
def hb_serialize_cff_fdselect (glyphs : List Nat) (sel : List Nat)
    (fmt : Nat) : List Nat :=
  if fmt = 0 then
    fdselectFormat0Bytes (subsetRemappedFds glyphs sel)
  else
    fdselectFormat3Bytes (subsetRemappedFds glyphs sel) glyphs.length

/-! ## Source accessor (`OT::cff2::accelerator_subset_t`, external) -/

/-- One parsed private dict of the source: its operator stream, the `Subrs`
offset parsed from it (0 when absent) and its local-subroutine index (the
serialized bytes), `none` when the accelerator left it at the null object. -/
structure PrivDictRecord where
  dictOps : List OpStr
  subrsOffset : Nat
  localSubrs : Option (List Nat)
deriving Repr, DecidableEq

/-- The source selector table: the glyph to font-dict assignment it encodes,
and its serialized form (re-emitted verbatim when no subsetting happens;
its length stands for `calculate_serialized_size (num_glyphs)`). -/
structure FdSelectSrc where
  fdFor : List Nat
  origBytes : List Nat
deriving Repr, DecidableEq

/-- The read-only source accessor. Sections that are conditionally present
(variation store, selector) are `Option`s, matching the null-object guards
in the source. -/
structure Accessor where
  topDictOps : List OpStr
  globalSubrs : List Nat
  varStore : Option (List Nat)
  fdSelect : Option FdSelectSrc
  fontDicts : List (List OpStr)
  privateDicts : List PrivDictRecord
  charStrings : List (List Nat)
  numGlyphs : Nat
deriving Repr, DecidableEq

/-! ## Dict and index serialization (shared `hb-subset-cff-common-private.hh`
machinery, modelled from the spec) -/

/-- Modelled from the spec: a dict's serialized size is the sum of its
operators' transcoded sizes (`Dict::calculate_serialized_size`). -/
def dictCalcSize (ops : List OpStr) (f : OpStr → Nat) : Nat :=
  (ops.map f).sum

/-- Modelled from the spec: a dict serializes operator by operator
(`Dict::serialize`). -/
def dictSerialize (ops : List OpStr) (f : OpStr → List Nat) : List Nat :=
  (ops.map f).flatten

/-- Modelled from the spec: `get_size` of a local-subroutine index; size 0
when absent. -/
def localSubrsSize : Option (List Nat) → Nat
  | none => 0
  | some s => s.length

/-- CFF2 index header: 4-byte count plus 1-byte offset size. -/
def indexHeaderSize : Nat := 5

/-- Modelled from the spec: `CFFIndex::calculate_serialized_size` =
index-header size + offset-array size + data size; the offset array has
`count + 1` entries of `offSize` bytes each. -/
def indexCalculateSerializedSize (offSize count dataSize : Nat) : Nat :=
  indexHeaderSize + offSize * (count + 1) + dataSize

/-- Modelled from the spec: serializing an index emits the count, the offset
size, the `count + 1` offsets (each one past the end of the data before the
item) and the concatenated item data. `count` is passed separately because
the font-dict array writes the planned count field even where the item list
is determined independently. -/
def indexSerialize (count offSize : Nat) (items : List (List Nat)) : List Nat :=
  encode4 count ++ [offSize % 256] ++
    ((List.range (count + 1)).map
      (fun k => encodeN offSize (1 + ((items.take k).map List.length).sum))).flatten ++
    items.flatten

/-- Whether original font dict `i` is retained: an empty remap table is a
no-op (all retained); otherwise the entry must not be the excluded
sentinel. -/
def isRetained (fdmap : List (Option Nat)) (i : Nat) : Bool :=
  fdmap.isEmpty || (fdmap.getD i none).isSome

/-- Modelled from the spec: the data size of the subset font-dict array is
the sum of the transcoded sizes of the retained font dicts only. -/
def fdArrayDictsSize (fontDicts : List (List OpStr))
    (fdmap : List (Option Nat)) : Nat :=
  ((fontDicts.enum.filter (fun p => isRetained fdmap p.1)).map
    (fun p => dictCalcSize p.2 fontDictOpSize)).sum

/-- Modelled from the spec: `CFF2FDArray::calculate_serialized_size` returns
the offset size (out-parameter in the source) and the index size. -/
def fdArrayCalcSize (fontDicts : List (List OpStr)) (substFdCount : Nat)
    (fdmap : List (Option Nat)) : Nat × Nat :=
  let ds := fdArrayDictsSize fontDicts fdmap
  let offSize := calcOffSize (ds + 1)
  (offSize, indexCalculateSerializedSize offSize substFdCount ds)

/-- Modelled from the spec: `CFF2FDArray::serialize` writes an index whose
count field is the substituted font-dict count and whose items are the
retained font dicts transcoded with the font-dict serializer, the `Private`
operator carrying that dict's planned private-dict placement. -/
def fdArraySerialize (fontDicts : List (List OpStr))
    (privateDictInfos : List TableInfo) (fdmap : List (Option Nat))
    (substFdCount offSize : Nat) : List Nat :=
  indexSerialize substFdCount offSize
    ((fontDicts.enum.filter (fun p => isRetained fdmap p.1)).map
      (fun p => dictSerialize p.2
        (fun o => fontDictOpSerialize o (privateDictInfos.getD p.1 ⟨0, 0⟩))))

/-! ## The subset plan (`cff2_subset_plan`, lines 162-279) -/

/-- `cff2_subset_plan`: the frozen artifact produced by `create`. Excluded
font dicts are `none` entries of `fdmap` (the `HB_SET_VALUE_INVALID`
sentinel of the source). -/
structure Cff2SubsetPlan where
  final_size : Nat
  offsets : CFF2SubTableOffsets
  orig_fdcount : Nat
  subst_fdcount : Nat
  subst_fdselect_format : Nat
  subst_fdselect_first_glyphs : List Nat
  fdmap : List (Option Nat)
  subset_charstrings : List (List Nat)
  privateDictInfos : List TableInfo
deriving Repr, DecidableEq

/-- `cff2_subset_plan::is_fds_subsetted`. -/
def is_fds_subsetted (p : Cff2SubsetPlan) : Bool :=
  p.subst_fdcount < p.orig_fdcount

/-- `OT::cff2::static_size`: major, minor, top-dict offset byte and the
2-byte top-dict size field. -/
def cff2HeaderSize : Nat := 5

/-- Default private-dict record used for out-of-range indexing (the null
object of the source). -/
def nullPrivDict : PrivDictRecord := ⟨[], 0, none⟩

/-- One iteration of the private-dict loop of `create` (lines 251-257): record
the running offset and the transcoded size, then advance past the dict and
its local-subroutine index. -/
def privDictStep (acc : Accessor) (st : Nat × List TableInfo) (i : Nat) :
    Nat × List TableInfo :=
  let pd := acc.privateDicts.getD i nullPrivDict
  let sz := dictCalcSize pd.dictOps privateDictOpSize
  (st.1 + sz + localSubrsSize pd.localSubrs, st.2 ++ [⟨st.1, sz⟩])

/-- `cff2_subset_plan::create` (lines 183-260): walk the sections in layout
order, accumulating `final_size` and recording each section's offset and
size, the selector remap, the retained charstrings and the private-dict
placements. Fails only if the selector-remap step fails. -/
def cff2SubsetPlanCreate (acc : Accessor) (glyphs : List Nat) :
    Option Cff2SubsetPlan :=
  let orig_fdcount := acc.fontDicts.length
  let topDictSize := dictCalcSize acc.topDictOps topDictOpSize
  let fs2 := cff2HeaderSize + topDictSize + acc.globalSubrs.length
  let varPart :=
    match acc.varStore with
    | none => ((0 : Nat), fs2)
    | some vs => (fs2, fs2 + vs.length)
  let varStoreOffset := varPart.1
  let fs3 := varPart.2
  let fdselPart :=
    match acc.fdSelect with
    | none =>
      some ((⟨0, 0⟩ : TableInfo), (1 : Nat), (0 : Nat), ([] : List Nat),
        ([] : List (Option Nat)), fs3)
    | some sel =>
      match hb_plan_subset_cff_fdselect glyphs orig_fdcount sel.fdFor with
      | none => none
      | some r =>
        let sz := if r.substFdCount < orig_fdcount then r.size
          else sel.origBytes.length
        some (⟨fs3, sz⟩, r.substFdCount, r.format, r.firstGlyphs, r.fdmap,
          fs3 + sz)
  match fdselPart with
  | none => none
  | some (fdSelectInfo, subst_fdcount, fmt, firstGlyphs, fdmap, fs4) =>
    let fdArrayPart := fdArrayCalcSize acc.fontDicts subst_fdcount fdmap
    let fs5 := fs4 + fdArrayPart.2
    let subset_charstrings := glyphs.map (fun g => acc.charStrings.getD g [])
    let dataSize := (subset_charstrings.map List.length).sum
    let charStringsOffSize := calcOffSize (dataSize + 1)
    let fs6 := fs5 +
      indexCalculateSerializedSize charStringsOffSize glyphs.length dataSize
    let privPart := (List.range orig_fdcount).foldl (privDictStep acc) (fs6, [])
    some
      { final_size := privPart.1
        offsets :=
          { topDictSize := topDictSize
            varStoreOffset := varStoreOffset
            FDSelectInfo := fdSelectInfo
            FDArrayOffset := fs4
            FDArrayOffSize := fdArrayPart.1
            charStringsOffset := fs5
            charStringsOffSize := charStringsOffSize
            privateDictsOffset := fs6 }
        orig_fdcount := orig_fdcount
        subst_fdcount := subst_fdcount
        subst_fdselect_format := fmt
        subst_fdselect_first_glyphs := firstGlyphs
        fdmap := fdmap
        subset_charstrings := subset_charstrings
        privateDictInfos := privPart.2 }

/-! ## The table writer (`_write_cff2`, lines 281-421) -/

/-- The writer's failure modes that are observable in the model: a private
dict referencing local subroutines that the accessor does not have
(lines 402-409). -/
inductive WriteFailure where
  | localSubrsNull (i : Nat)
deriving Repr, DecidableEq

/-- Header section (lines 293-296): major 2, minor 0, top-dict offset
`static_size`, then the 2-byte planned top-dict size. -/
def headerBytes (p : Cff2SubsetPlan) : List Nat :=
  [2, 0, cff2HeaderSize % 256] ++ encode2 p.offsets.topDictSize

/-- Top-dict section (lines 298-309): transcode the source operators, the
four special operators carrying the planned offsets. -/
def topDictBytes (acc : Accessor) (p : Cff2SubsetPlan) : List Nat :=
  dictSerialize acc.topDictOps (fun o => topDictOpSerialize o p.offsets)

/-- Variation-store section (lines 323-333): verbatim re-serialization when
present. -/
def varStoreBytes (acc : Accessor) : List Nat :=
  match acc.varStore with
  | none => []
  | some vs => vs

/-- Selector section (lines 335-360): the re-encoded table when font-dict
subsetting occurred, the original table verbatim otherwise. -/
def fdSelectBytes (acc : Accessor) (p : Cff2SubsetPlan)
    (glyphs : List Nat) : List Nat :=
  match acc.fdSelect with
  | none => []
  | some sel =>
    if is_fds_subsetted p then
      hb_serialize_cff_fdselect glyphs sel.fdFor p.subst_fdselect_format
    else
      sel.origBytes

/-- Font-dict-array section (lines 362-375). -/
def fdArrayBytes (acc : Accessor) (p : Cff2SubsetPlan) : List Nat :=
  fdArraySerialize acc.fontDicts p.privateDictInfos p.fdmap
    p.subst_fdcount p.offsets.FDArrayOffSize

/-- Charstring-index section (lines 377-387). -/
def charStringsBytes (p : Cff2SubsetPlan) : List Nat :=
  indexSerialize p.subset_charstrings.length p.offsets.charStringsOffSize
    p.subset_charstrings

/-- One (private dict, optional local subrs) pair of the final loop
(lines 391-416): transcode the dict with the planned size as the `Subrs`
offset, then, iff the source records a nonzero subrs offset, append the
local-subroutine index — failing when the accessor has none. -/
def privatePairBytes (acc : Accessor) (p : Cff2SubsetPlan) (i : Nat) :
    Except WriteFailure (List Nat) :=
  if (acc.privateDicts.getD i nullPrivDict).subrsOffset ≠ 0 then
    match (acc.privateDicts.getD i nullPrivDict).localSubrs with
    | none => .error (.localSubrsNull i)
    | some s =>
      .ok (dictSerialize (acc.privateDicts.getD i nullPrivDict).dictOps
        (fun o => privateDictOpSerialize o
          (p.privateDictInfos.getD i ⟨0, 0⟩).size) ++ s)
  else
    .ok (dictSerialize (acc.privateDicts.getD i nullPrivDict).dictOps
      (fun o => privateDictOpSerialize o (p.privateDictInfos.getD i ⟨0, 0⟩).size))

/-- The private-dict block: the pairs for all original font-dict indices, in
order (the loop bound is `acc.privateDicts.len`, line 391). -/
def privateBlockBytes (acc : Accessor) (p : Cff2SubsetPlan) :
    Except WriteFailure (List Nat) := do
  let pairs ← (List.range acc.privateDicts.length).mapM (privatePairBytes acc p)
  pure pairs.flatten

/-- `_write_cff2` (lines 281-421): emit every section in canonical order.
The sections before the private block cannot fail in the model (their only
source-level failure is running out of buffer room, which the size theorems
below rule out); the private block can fail per `privatePairBytes`. -/
def writeCff2 (p : Cff2SubsetPlan) (acc : Accessor) (glyphs : List Nat) :
    Except WriteFailure (List Nat) := do
  let priv ← privateBlockBytes acc p
  pure (headerBytes p ++ topDictBytes acc p ++ acc.globalSubrs ++
    varStoreBytes acc ++ fdSelectBytes acc p glyphs ++ fdArrayBytes acc p ++
    charStringsBytes p ++ priv)

/-! ## The driver (`_hb_subset_cff2`, lines 423-453) -/

/-- Outcome of the driver as observable by the caller: a returned blob, a
reported failure, or a write through the null output pointer (the source
calls `calloc` at line 438 and passes the result to `_write_cff2` without a
null check; the writer's first header store then dereferences it). -/
inductive SubsetOutcome where
  | ok (blob : List Nat)
  | fail
  | nullDeref
deriving Repr, DecidableEq

/-- `_hb_subset_cff2` (lines 423-453): build the plan (failure aborts), take
the output buffer from the allocator (`allocOk` says whether `calloc`
succeeded; its result is not checked by the source), run the writer (failure
frees the buffer and aborts), and hand the blob to the caller. -/
def hbSubsetCff2 (acc : Accessor) (glyphs : List Nat) (allocOk : Bool) :
    SubsetOutcome :=
  match cff2SubsetPlanCreate acc glyphs with
  | none => .fail
  | some plan =>
    if allocOk then
      match writeCff2 plan acc glyphs with
      | .error _ => .fail
      | .ok bytes => .ok bytes
    else
      .nullDeref

/-! ## Derived descriptions of the private-dict block -/

/-- The transcoded size of the private dict at original index `i`
(`PrivateDict::calculate_serialized_size`, line 254). -/
def privDictSizeAt (acc : Accessor) (i : Nat) : Nat :=
  dictCalcSize (acc.privateDicts.getD i nullPrivDict).dictOps privateDictOpSize

/-- The planned byte budget of pair `i`: transcoded private dict plus its
local-subroutine index size (line 256). -/
def privPairSize (acc : Accessor) (i : Nat) : Nat :=
  privDictSizeAt acc i +
    localSubrsSize (acc.privateDicts.getD i nullPrivDict).localSubrs

/-- The cumulative byte budget of the first `n` pairs. -/
def privPrefixSum (acc : Accessor) (n : Nat) : Nat :=
  ((List.range n).map (privPairSize acc)).sum

/-- The bytes the writer emits for pair `i` when it succeeds: the transcoded
private dict followed by the source local-subroutine index exactly when the
source records a nonzero `Subrs` offset. -/
def privPairWritten (acc : Accessor) (p : Cff2SubsetPlan) (i : Nat) : List Nat :=
  dictSerialize (acc.privateDicts.getD i nullPrivDict).dictOps
    (fun o => privateDictOpSerialize o (p.privateDictInfos.getD i ⟨0, 0⟩).size) ++
  (if (acc.privateDicts.getD i nullPrivDict).subrsOffset ≠ 0 then
    (acc.privateDicts.getD i nullPrivDict).localSubrs.getD []
  else
    [])

/-! ## Concrete example inputs (used by the witnesses below)

`accEx` mirrors the concrete scenario of the spec, section 8: 3 font dicts,
10 glyphs, selector {0-3}→0, {4-6}→1, {7-9}→2, glyph selection
{0,1,5,6,9}. -/

def accEx : Accessor :=
  { topDictOps := [⟨OpCode_vstore, [32, 24]⟩, ⟨OpCode_CharStrings, [33, 17]⟩,
      ⟨OpCode_FDArray, [34, 12, 36]⟩, ⟨OpCode_FDSelect, [35, 12, 37]⟩,
      ⟨7, [139, 7]⟩]
    globalSubrs := [0, 0, 0, 0, 1]
    varStore := some [9, 9, 9]
    fdSelect := some
      { fdFor := [0, 0, 0, 0, 1, 1, 1, 2, 2, 2]
        origBytes := [0, 0, 0, 0, 0, 1, 1, 1, 2, 2, 2] }
    fontDicts := [[⟨OpCode_Private, [140, 141, 18]⟩],
      [⟨OpCode_Private, [140, 141, 18]⟩], [⟨OpCode_Private, [140, 141, 18]⟩]]
    privateDicts := [⟨[⟨1, [139, 1]⟩, ⟨OpCode_Subrs, [140, 19]⟩], 3, some [7, 7, 7, 7]⟩,
      ⟨[⟨1, [139, 1]⟩], 0, none⟩,
      ⟨[⟨OpCode_Subrs, [141, 19]⟩], 2, some [8, 8]⟩]
    charStrings := [[1], [2, 2], [3], [4], [5], [6, 6], [7], [8], [9], [10, 10]]
    numGlyphs := 10 }

def gEx : List Nat := [0, 1, 5, 6, 9]

def emptyPlan : Cff2SubsetPlan :=
  ⟨0, {}, 0, 0, 0, [], [], [], []⟩

def planEx : Cff2SubsetPlan :=
  (cff2SubsetPlanCreate accEx gEx).getD emptyPlan

/-- An accessor whose retained glyphs reference only one of three font
dicts, exercising the selector-subsetting path. -/
def accSub : Accessor :=
  { topDictOps := [⟨OpCode_CharStrings, [33, 17]⟩, ⟨OpCode_FDArray, [34, 12, 36]⟩,
      ⟨OpCode_FDSelect, [35, 12, 37]⟩]
    globalSubrs := [0, 0, 0, 0, 0]
    varStore := none
    fdSelect := some { fdFor := [0, 0, 1, 1, 2, 2], origBytes := [0, 0, 0, 1, 1, 2, 2] }
    fontDicts := [[⟨OpCode_Private, [140, 141, 18]⟩],
      [⟨OpCode_Private, [140, 141, 18]⟩], [⟨OpCode_Private, [140, 141, 18]⟩]]
    privateDicts := [⟨[⟨1, [139, 1]⟩], 0, none⟩, ⟨[⟨1, [139, 1]⟩], 0, none⟩,
      ⟨[⟨1, [139, 1]⟩], 0, none⟩]
    charStrings := [[1], [2], [3], [4], [5], [6]]
    numGlyphs := 6 }

def gSub : List Nat := [0, 1]

def planSub : Cff2SubsetPlan :=
  (cff2SubsetPlanCreate accSub gSub).getD emptyPlan

/-- An accessor with two font dicts and no selector table. -/
def accNoSel : Accessor :=
  { topDictOps := [⟨OpCode_CharStrings, [33, 17]⟩, ⟨OpCode_FDArray, [34, 12, 36]⟩]
    globalSubrs := []
    varStore := none
    fdSelect := none
    fontDicts := [[⟨OpCode_Private, [140, 141, 18]⟩], [⟨OpCode_Private, [140, 141, 18]⟩]]
    privateDicts := [⟨[⟨1, [139, 1]⟩], 0, none⟩, ⟨[⟨1, [139, 1]⟩], 0, none⟩]
    charStrings := [[1], [2]]
    numGlyphs := 2 }

/-- An accessor whose first private dict records a nonzero `Subrs` offset
while its local-subroutine index is absent. -/
def accBad : Accessor :=
  { accNoSel with
    privateDicts := [⟨[⟨OpCode_Subrs, [140, 19]⟩], 3, none⟩, ⟨[⟨1, [139, 1]⟩], 0, none⟩] }

def planBad : Cff2SubsetPlan :=
  (cff2SubsetPlanCreate accBad [0, 1]).getD emptyPlan

def planNoSel : Cff2SubsetPlan :=
  (cff2SubsetPlanCreate accNoSel [0, 1]).getD emptyPlan

/-- An accessor whose selector refers to a font-dict index outside
`[0, orig_fdcount)`, making plan construction fail. -/
def accPlanFail : Accessor :=
  { accSub with fdSelect := some { fdFor := [9, 9, 9, 9, 9, 9], origBytes := [0] } }

/-! ## Length lemmas for the encoders -/

lemma length_encode2 (v : Nat) : (encode2 v).length = 2 := rfl

lemma length_encode4 (v : Nat) : (encode4 v).length = 4 := rfl

lemma length_encodeN (w v : Nat) : (encodeN w v).length = w := by
  simp [encodeN]

lemma length_opEncoding (op : Nat) : (opEncoding op).length = OpCode_Size op := by
  unfold opEncoding OpCode_Size
  split <;> simp

lemma length_serialize_offset4_op (op v : Nat) :
    (serialize_offset4_op op v).length = 5 + OpCode_Size op := by
  simp [serialize_offset4_op, encode4, length_opEncoding]
  omega

lemma length_serialize_offset2_op (op v : Nat) :
    (serialize_offset2_op op v).length = 3 + OpCode_Size op := by
  simp [serialize_offset2_op, encode2, length_opEncoding]
  omega

/-! ## Per-operator transcoder lemmas -/

lemma topDictOp_length (o : OpStr) (offs : CFF2SubTableOffsets) :
    (topDictOpSerialize o offs).length = topDictOpSize o := by
  have hl : OpCode_Size OpCode_longint = 1 := rfl
  unfold topDictOpSerialize topDictOpSize
  split_ifs <;>
    first
      | tauto
      | rfl
      | (rw [length_serialize_offset4_op]; omega)

lemma fontDictOp_length (o : OpStr) (pi : TableInfo) :
    (fontDictOpSerialize o pi).length = fontDictOpSize o := by
  unfold fontDictOpSerialize fontDictOpSize
  split_ifs <;> rfl

lemma privateDictOp_length (o : OpStr) (s : Nat) :
    (privateDictOpSerialize o s).length = privateDictOpSize o := by
  unfold privateDictOpSerialize privateDictOpSize
  split_ifs <;> rfl

/-! ## Dict- and index-level length lemmas -/

lemma dictSerialize_length (ops : List OpStr) (f : OpStr → List Nat)
    (g : OpStr → Nat) (h : ∀ o ∈ ops, (f o).length = g o) :
    (dictSerialize ops f).length = dictCalcSize ops g := by
  unfold dictSerialize dictCalcSize
  rw [List.length_flatten, List.map_map]
  exact congrArg List.sum (List.map_congr_left h)

lemma topDict_length (ops : List OpStr) (offs : CFF2SubTableOffsets) :
    (dictSerialize ops (fun o => topDictOpSerialize o offs)).length =
      dictCalcSize ops topDictOpSize :=
  dictSerialize_length ops _ _ (fun o _ => topDictOp_length o offs)

lemma indexSerialize_length (count offSize : Nat) (items : List (List Nat)) :
    (indexSerialize count offSize items).length =
      indexCalculateSerializedSize offSize count ((items.map List.length).sum) := by
  unfold indexSerialize indexCalculateSerializedSize indexHeaderSize
  simp [encode4, List.length_flatten, List.map_map, length_encodeN,
    Function.comp_def]
  rw [Nat.mul_comm]
  omega

lemma fdArraySerialize_length (fontDicts : List (List OpStr))
    (infos : List TableInfo) (fdmap : List (Option Nat)) (cnt offSize : Nat) :
    (fdArraySerialize fontDicts infos fdmap cnt offSize).length =
      indexCalculateSerializedSize offSize cnt (fdArrayDictsSize fontDicts fdmap) := by
  unfold fdArraySerialize fdArrayDictsSize
  rw [indexSerialize_length]
  congr 1
  rw [List.map_map]
  refine congrArg List.sum (List.map_congr_left ?_)
  intro p _
  exact dictSerialize_length p.2 _ _ (fun o _ => fontDictOp_length o _)

/-! ## Selector-table length lemmas -/

lemma flatten_ranges_length (l : List (Nat × Nat)) :
    ((l.map (fun p => encode2 p.1 ++ [p.2 % 256])).flatten).length = 3 * l.length := by
  induction l with
  | nil => rfl
  | cons a t ih =>
    simp only [List.map_cons, List.flatten_cons, List.length_append, ih]
    simp [encode2]
    omega

lemma length_fdselectFormat0 (rs : List Nat) :
    (fdselectFormat0Bytes rs).length = 1 + rs.length := by
  simp [fdselectFormat0Bytes]
  omega

lemma length_fdselectFormat3 (rs : List Nat) (n : Nat) :
    (fdselectFormat3Bytes rs n).length = 5 + 3 * (runStarts rs).length := by
  simp only [fdselectFormat3Bytes, List.length_cons, List.length_append,
    flatten_ranges_length, length_encode2]
  omega

lemma length_subsetRemappedFds (glyphs sel : List Nat) :
    (subsetRemappedFds glyphs sel).length = glyphs.length := by
  simp [subsetRemappedFds, subsetFds]

lemma fdselect_serialize_length_fmt (glyphs sel : List Nat) (fmt : Nat) :
    (hb_serialize_cff_fdselect glyphs sel fmt).length =
      if fmt = 0 then 1 + glyphs.length
      else 5 + 3 * (runStarts (subsetRemappedFds glyphs sel)).length := by
  unfold hb_serialize_cff_fdselect
  split_ifs with hf
  · rw [length_fdselectFormat0, length_subsetRemappedFds]
  · rw [length_fdselectFormat3]

lemma fdselect_serialize_length (glyphs : List Nat) (n : Nat) (sel : List Nat)
    (r : FdSelectSubsetPlan)
    (h : hb_plan_subset_cff_fdselect glyphs n sel = some r) :
    (hb_serialize_cff_fdselect glyphs sel r.format).length = r.size := by
  unfold hb_plan_subset_cff_fdselect at h
  dsimp only at h
  split_ifs at h
  all_goals
    try
      (rw [Option.some_inj] at h
       subst h
       rw [fdselect_serialize_length_fmt]
       simp)

/-! ## Facts extracted from a successful `create` -/

/-- Everything the claim proofs need about the fields of a successfully
constructed plan, read off `cff2SubsetPlanCreate` branch by branch. -/
lemma create_facts (acc : Accessor) (glyphs : List Nat) (p : Cff2SubsetPlan)
    (h : cff2SubsetPlanCreate acc glyphs = some p) :
    p.orig_fdcount = acc.fontDicts.length ∧
    p.offsets.topDictSize = dictCalcSize acc.topDictOps topDictOpSize ∧
    (∀ vs, acc.varStore = some vs →
      p.offsets.varStoreOffset =
        cff2HeaderSize + p.offsets.topDictSize + acc.globalSubrs.length) ∧
    (∀ sel, acc.fdSelect = some sel →
      p.offsets.FDSelectInfo.offset =
        cff2HeaderSize + p.offsets.topDictSize + acc.globalSubrs.length +
          (varStoreBytes acc).length) ∧
    (acc.fdSelect = none →
      p.offsets.FDSelectInfo = ⟨0, 0⟩ ∧ p.subst_fdcount = 1 ∧ p.fdmap = []) ∧
    (∀ sel, acc.fdSelect = some sel → ∃ r,
      hb_plan_subset_cff_fdselect glyphs acc.fontDicts.length sel.fdFor = some r ∧
      p.subst_fdcount = r.substFdCount ∧
      p.subst_fdselect_format = r.format ∧
      p.fdmap = r.fdmap ∧
      p.subst_fdselect_first_glyphs = r.firstGlyphs ∧
      p.offsets.FDSelectInfo.size =
        (if r.substFdCount < acc.fontDicts.length then r.size
         else sel.origBytes.length)) ∧
    p.offsets.FDArrayOffset =
      cff2HeaderSize + p.offsets.topDictSize + acc.globalSubrs.length +
        (varStoreBytes acc).length + p.offsets.FDSelectInfo.size ∧
    p.offsets.FDArrayOffSize =
      calcOffSize (fdArrayDictsSize acc.fontDicts p.fdmap + 1) ∧
    p.offsets.charStringsOffset = p.offsets.FDArrayOffset +
      indexCalculateSerializedSize p.offsets.FDArrayOffSize p.subst_fdcount
        (fdArrayDictsSize acc.fontDicts p.fdmap) ∧
    p.subset_charstrings = glyphs.map (fun g => acc.charStrings.getD g []) ∧
    p.offsets.charStringsOffSize =
      calcOffSize ((p.subset_charstrings.map List.length).sum + 1) ∧
    p.offsets.privateDictsOffset = p.offsets.charStringsOffset +
      indexCalculateSerializedSize p.offsets.charStringsOffSize glyphs.length
        ((p.subset_charstrings.map List.length).sum) ∧
    (p.final_size, p.privateDictInfos) =
      (List.range acc.fontDicts.length).foldl (privDictStep acc)
        (p.offsets.privateDictsOffset, []) := by
  unfold cff2SubsetPlanCreate at h
  rcases hvar : acc.varStore with _ | vs <;>
    rcases hfd : acc.fdSelect with _ | sel
  · simp only [hvar, hfd] at h
    rw [Option.some_inj] at h
    subst h
    simp [varStoreBytes, hvar, hfd, fdArrayCalcSize]
  · simp only [hvar, hfd] at h
    rcases hpl : hb_plan_subset_cff_fdselect glyphs acc.fontDicts.length
        sel.fdFor with _ | r <;> simp only [hpl] at h
    · exact absurd h (by simp)
    rw [Option.some_inj] at h
    subst h
    simp [varStoreBytes, hvar, hfd, fdArrayCalcSize]
    exact ⟨r, hpl, rfl, rfl, rfl, rfl, rfl⟩
  · simp only [hvar, hfd] at h
    rw [Option.some_inj] at h
    subst h
    simp [varStoreBytes, hvar, hfd, fdArrayCalcSize]
  · simp only [hvar, hfd] at h
    rcases hpl : hb_plan_subset_cff_fdselect glyphs acc.fontDicts.length
        sel.fdFor with _ | r <;> simp only [hpl] at h
    · exact absurd h (by simp)
    rw [Option.some_inj] at h
    subst h
    simp [varStoreBytes, hvar, hfd, fdArrayCalcSize]
    exact ⟨r, hpl, rfl, rfl, rfl, rfl, rfl⟩

/-- The selector section's byte count always equals the planned selector
size (shared by C2's proof chain). -/
lemma fdSelectBytes_length (acc : Accessor) (glyphs : List Nat)
    (p : Cff2SubsetPlan) (h : cff2SubsetPlanCreate acc glyphs = some p) :
    (fdSelectBytes acc p glyphs).length = p.offsets.FDSelectInfo.size := by
  obtain ⟨h1, _, _, _, h5, h6, _⟩ := create_facts acc glyphs p h
  cases hfd : acc.fdSelect with
  | none =>
    obtain ⟨hinfo, _, _⟩ := h5 hfd
    simp [fdSelectBytes, hfd, hinfo]
  | some sel =>
    obtain ⟨r, hpl, hsubst, hfmt, _, _, hsize⟩ := h6 sel hfd
    by_cases hs : p.subst_fdcount < p.orig_fdcount
    · simp only [fdSelectBytes, hfd, is_fds_subsetted, decide_eq_true_eq]
      rw [if_pos hs, hfmt,
        fdselect_serialize_length glyphs acc.fontDicts.length sel.fdFor r hpl,
        hsize, if_pos]
      rw [← hsubst, ← h1]
      exact hs
    · simp only [fdSelectBytes, hfd, is_fds_subsetted, decide_eq_true_eq]
      rw [if_neg hs, hsize, if_neg]
      rw [← hsubst, ← h1]
      exact hs

/-- The font-dict-array section's byte count equals the planned size. -/
lemma fdArrayBytes_length (acc : Accessor) (p : Cff2SubsetPlan) :
    (fdArrayBytes acc p).length =
      indexCalculateSerializedSize p.offsets.FDArrayOffSize p.subst_fdcount
        (fdArrayDictsSize acc.fontDicts p.fdmap) := by
  unfold fdArrayBytes
  exact fdArraySerialize_length _ _ _ _ _

/-- The charstring section's byte count equals the planned size. -/
lemma charStringsBytes_length (p : Cff2SubsetPlan) :
    (charStringsBytes p).length =
      indexCalculateSerializedSize p.offsets.charStringsOffSize
        p.subset_charstrings.length ((p.subset_charstrings.map List.length).sum) := by
  unfold charStringsBytes
  exact indexSerialize_length _ _ _


/-! ## Private-dict block lemmas -/

/-- Closed form of the private-dict planning loop of `create`. -/
lemma foldl_privDictStep (acc : Accessor) (start n : Nat) :
    (List.range n).foldl (privDictStep acc) (start, []) =
      (start + privPrefixSum acc n,
       (List.range n).map
         (fun i => (⟨start + privPrefixSum acc i, privDictSizeAt acc i⟩ : TableInfo))) := by
  induction n with
  | zero => simp [privPrefixSum]
  | succ n ih =>
    rw [List.range_succ, List.foldl_append, ih]
    simp only [List.foldl_cons, List.foldl_nil, privDictStep, privPrefixSum,
      List.range_succ, List.map_append, List.map_cons, List.map_nil,
      List.sum_append, List.sum_cons, List.sum_nil, privPairSize, privDictSizeAt,
      Prod.mk.injEq]
    exact ⟨by omega, trivial⟩

/-- `privatePairBytes` succeeds only on a consistent pair, and then produces
`privPairWritten`. -/
lemma privatePairBytes_ok_inv (acc : Accessor) (p : Cff2SubsetPlan) (i : Nat)
    (b : List Nat) (h : privatePairBytes acc p i = Except.ok b) :
    b = privPairWritten acc p i ∧
    ¬((acc.privateDicts.getD i nullPrivDict).subrsOffset ≠ 0 ∧
      (acc.privateDicts.getD i nullPrivDict).localSubrs = none) := by
  unfold privatePairBytes at h
  by_cases hz : (acc.privateDicts.getD i nullPrivDict).subrsOffset ≠ 0
  · rw [if_pos hz] at h
    cases hl : (acc.privateDicts.getD i nullPrivDict).localSubrs with
    | none => rw [hl] at h; exact absurd h (by simp)
    | some s =>
      rw [hl] at h
      injection h with hb
      constructor
      · rw [← hb]
        unfold privPairWritten
        rw [if_pos hz, hl]
        rfl
      · intro hc
        exact Option.noConfusion hc.2
  · rw [if_neg hz] at h
    injection h with hb
    constructor
    · rw [← hb]
      unfold privPairWritten
      rw [if_neg hz, List.append_nil]
    · intro hc
      exact hz hc.1

/-- Success inversion for the private-dict block loop: every pair succeeded
and the block is the concatenation of the written pairs. -/
lemma mapM_privatePairBytes_ok (acc : Accessor) (p : Cff2SubsetPlan) :
    ∀ (l : List Nat) (ys : List (List Nat)),
      l.mapM (privatePairBytes acc p) = Except.ok ys →
      ys = l.map (privPairWritten acc p) ∧
      ∀ i ∈ l, privatePairBytes acc p i = Except.ok (privPairWritten acc p i) := by
  intro l
  induction l with
  | nil =>
    intro ys h
    simp only [List.mapM_nil, pure, Except.pure, Except.ok.injEq] at h
    subst h
    exact ⟨rfl, by simp⟩
  | cons a t ih =>
    intro ys h
    rw [List.mapM_cons] at h
    cases hfa : privatePairBytes acc p a with
    | error e =>
      rw [hfa] at h
      simp [Bind.bind, Except.bind] at h
    | ok b =>
      rw [hfa] at h
      cases hft : t.mapM (privatePairBytes acc p) with
      | error e =>
        rw [hft] at h
        simp [Bind.bind, Except.bind] at h
      | ok bs =>
        rw [hft] at h
        simp only [Bind.bind, Except.bind, pure, Except.pure, Except.ok.injEq] at h
        subst h
        obtain ⟨hbs, hall⟩ := ih bs hft
        obtain ⟨hb, _⟩ := privatePairBytes_ok_inv acc p a b hfa
        subst hb hbs
        refine ⟨rfl, ?_⟩
        intro i hi
        rcases List.mem_cons.mp hi with rfl | hit
        · exact hfa
        · exact hall i hit

/-- The length the writer emits for a consistent pair equals the planned pair
budget. -/
lemma privPairWritten_length (acc : Accessor) (p : Cff2SubsetPlan) (i : Nat)
    (hwf0 : (acc.privateDicts.getD i nullPrivDict).subrsOffset = 0 →
      (acc.privateDicts.getD i nullPrivDict).localSubrs = none)
    (hok : ¬((acc.privateDicts.getD i nullPrivDict).subrsOffset ≠ 0 ∧
      (acc.privateDicts.getD i nullPrivDict).localSubrs = none)) :
    (privPairWritten acc p i).length = privPairSize acc i := by
  unfold privPairWritten privPairSize privDictSizeAt
  rw [List.length_append,
    dictSerialize_length _ _ _ (fun o _ => privateDictOp_length o _)]
  congr 1
  by_cases hz : (acc.privateDicts.getD i nullPrivDict).subrsOffset = 0
  · rw [if_neg (not_not_intro hz), hwf0 hz]
    rfl
  · cases hl : (acc.privateDicts.getD i nullPrivDict).localSubrs with
    | none => exact absurd ⟨hz, hl⟩ hok
    | some s =>
      rw [if_pos hz]
      rfl

/-- The cursor position of the writer at the start of the private-dict block
equals the planned offset (shared helper). -/
lemma writer_prefix_length (acc : Accessor) (glyphs : List Nat)
    (p : Cff2SubsetPlan) (h : cff2SubsetPlanCreate acc glyphs = some p) :
    (headerBytes p ++ topDictBytes acc p ++ acc.globalSubrs ++ varStoreBytes acc ++
      fdSelectBytes acc p glyphs ++ fdArrayBytes acc p ++ charStringsBytes p).length =
      p.offsets.privateDictsOffset := by
  obtain ⟨h1, h2, h3, h4, h5, h6, h7, h8, h9, h10, h11, h12, h13⟩ :=
    create_facts acc glyphs p h
  have hH : (headerBytes p).length = cff2HeaderSize := rfl
  have hT : (topDictBytes acc p).length = p.offsets.topDictSize := by
    unfold topDictBytes
    rw [topDict_length]
    exact h2.symm
  have hS := fdSelectBytes_length acc glyphs p h
  have hA := fdArrayBytes_length acc p
  have hC := charStringsBytes_length p
  have hcs_len : p.subset_charstrings.length = glyphs.length := by
    rw [h10, List.length_map]
  rw [h12, h9, h7]
  simp only [List.length_append, hH, hT, hS, hA, hC, hcs_len]

/-! ## Claim theorems -/

/-- C1: For every dict kind (top dict, font dict, private dict) and every
operator in a dict's operator stream, the transcoder's size-calculation
function returns exactly the number of bytes its serialize function emits for
that operator, and for the special offset/size-bearing operators this size is
independent of the offset/size value being embedded. -/
theorem transcoder_size_calc_is_exact (o : OpStr) (ops : List OpStr)
    (offs offs' : CFF2SubTableOffsets) (pi pi' : TableInfo) (s s' : Nat) :
    (topDictOpSerialize o offs).length = topDictOpSize o ∧
    (fontDictOpSerialize o pi).length = fontDictOpSize o ∧
    (privateDictOpSerialize o s).length = privateDictOpSize o ∧
    (topDictOpSerialize o offs).length = (topDictOpSerialize o offs').length ∧
    (fontDictOpSerialize o pi).length = (fontDictOpSerialize o pi').length ∧
    (privateDictOpSerialize o s).length = (privateDictOpSerialize o s').length ∧
    (dictSerialize ops (fun o => topDictOpSerialize o offs)).length =
      dictCalcSize ops topDictOpSize ∧
    (dictSerialize ops (fun o => fontDictOpSerialize o pi)).length =
      dictCalcSize ops fontDictOpSize ∧
    (dictSerialize ops (fun o => privateDictOpSerialize o s)).length =
      dictCalcSize ops privateDictOpSize :=
  ⟨topDictOp_length o offs, fontDictOp_length o pi, privateDictOp_length o s,
    (topDictOp_length o offs).trans (topDictOp_length o offs').symm,
    (fontDictOp_length o pi).trans (fontDictOp_length o pi').symm,
    (privateDictOp_length o s).trans (privateDictOp_length o s').symm,
    dictSerialize_length ops _ _ (fun o _ => topDictOp_length o offs),
    dictSerialize_length ops _ _ (fun o _ => fontDictOp_length o pi),
    dictSerialize_length ops _ _ (fun o _ => privateDictOp_length o s)⟩

/-- C5: In the top dict, the four operators carrying the variation-store,
charstrings, font-dict-array and selector-table offsets are re-encoded as a
fixed-width 32-bit integer operand followed by the operator code, whatever
the original operand bytes were; every other operator is copied byte-for-byte
from the source. -/
theorem topdict_special_ops_reencoded (op : Nat) (str str' : List Nat)
    (offs : CFF2SubTableOffsets) :
    (op = OpCode_vstore ∨ op = OpCode_CharStrings ∨ op = OpCode_FDArray ∨
        op = OpCode_FDSelect →
      topDictOpSerialize ⟨op, str⟩ offs =
        OpCode_longint % 256 ::
          (encode4 (topDictSpecialValue op offs) ++ opEncoding op) ∧
      topDictOpSerialize ⟨op, str⟩ offs = topDictOpSerialize ⟨op, str'⟩ offs) ∧
    (¬(op = OpCode_vstore ∨ op = OpCode_CharStrings ∨ op = OpCode_FDArray ∨
        op = OpCode_FDSelect) →
      topDictOpSerialize ⟨op, str⟩ offs = str) := by
  constructor
  · intro hsp
    unfold topDictOpSerialize topDictSpecialValue serialize_offset4_op
    rcases hsp with h | h | h | h <;>
      simp [h, OpCode_vstore, OpCode_CharStrings, OpCode_FDArray, OpCode_FDSelect,
        OpCode_escape]
  · intro hns
    push_neg at hns
    unfold topDictOpSerialize
    simp [hns.1, hns.2.1, hns.2.2.1, hns.2.2.2, copy_opstr]

/-- Witness for C5 at a special and a non-special operator. -/
theorem topdict_special_ops_reencoded_witness :
    topDictOpSerialize ⟨OpCode_vstore, [139, 24]⟩ planEx.offsets =
      OpCode_longint % 256 ::
        (encode4 (topDictSpecialValue OpCode_vstore planEx.offsets) ++
          opEncoding OpCode_vstore) ∧
    topDictOpSerialize ⟨7, [139, 7]⟩ planEx.offsets = [139, 7] :=
  ⟨((topdict_special_ops_reencoded OpCode_vstore [139, 24] [0] planEx.offsets).1
      (Or.inl rfl)).1,
    (topdict_special_ops_reencoded 7 [139, 7] [0] planEx.offsets).2 (by decide)⟩

/-- C2: for any source table and glyph selection on which plan construction
succeeds, each offset the plan records (variation store, selector, font-dict
array, charstrings, private-dict block) equals the cumulative size of all
preceding sections in the canonical order (no gaps or overlaps), and the
table writer's cursor at the start of each section — the number of bytes the
writer has emitted for the earlier sections — equals that recorded offset. -/
theorem plan_offsets_match_writer_cursor (acc : Accessor) (glyphs : List Nat)
    (p : Cff2SubsetPlan) (h : cff2SubsetPlanCreate acc glyphs = some p) :
    (headerBytes p).length = cff2HeaderSize ∧
    (topDictBytes acc p).length = p.offsets.topDictSize ∧
    (fdSelectBytes acc p glyphs).length = p.offsets.FDSelectInfo.size ∧
    (∀ vs, acc.varStore = some vs → p.offsets.varStoreOffset =
      (headerBytes p ++ topDictBytes acc p ++ acc.globalSubrs).length) ∧
    (∀ sel, acc.fdSelect = some sel → p.offsets.FDSelectInfo.offset =
      (headerBytes p ++ topDictBytes acc p ++ acc.globalSubrs ++
        varStoreBytes acc).length) ∧
    p.offsets.FDArrayOffset =
      (headerBytes p ++ topDictBytes acc p ++ acc.globalSubrs ++ varStoreBytes acc ++
        fdSelectBytes acc p glyphs).length ∧
    p.offsets.charStringsOffset =
      (headerBytes p ++ topDictBytes acc p ++ acc.globalSubrs ++ varStoreBytes acc ++
        fdSelectBytes acc p glyphs ++ fdArrayBytes acc p).length ∧
    p.offsets.privateDictsOffset =
      (headerBytes p ++ topDictBytes acc p ++ acc.globalSubrs ++ varStoreBytes acc ++
        fdSelectBytes acc p glyphs ++ fdArrayBytes acc p ++ charStringsBytes p).length := by
  obtain ⟨h1, h2, h3, h4, h5, h6, h7, h8, h9, h10, h11, h12, h13⟩ :=
    create_facts acc glyphs p h
  have hH : (headerBytes p).length = cff2HeaderSize := rfl
  have hT : (topDictBytes acc p).length = p.offsets.topDictSize := by
    unfold topDictBytes
    rw [topDict_length]
    exact h2.symm
  have hS := fdSelectBytes_length acc glyphs p h
  have hA := fdArrayBytes_length acc p
  have hC := charStringsBytes_length p
  have hcs_len : p.subset_charstrings.length = glyphs.length := by
    rw [h10, List.length_map]
  refine ⟨hH, hT, hS, ?_, ?_, ?_, ?_, ?_⟩
  · intro vs hv
    rw [h3 vs hv]
    simp only [List.length_append, hH, hT]
  · intro sel hsel
    rw [h4 sel hsel]
    simp only [List.length_append, hH, hT]
  · rw [h7]
    simp only [List.length_append, hH, hT, hS]
  · rw [h9, h7]
    simp only [List.length_append, hH, hT, hS, hA]
  · rw [h12, h9, h7]
    simp only [List.length_append, hH, hT, hS, hA, hC, hcs_len]

/-- Witness for C2 on the spec's concrete scenario. -/
theorem plan_offsets_match_writer_cursor_witness :
    cff2SubsetPlanCreate accEx gEx = some planEx ∧
    planEx.offsets.varStoreOffset =
      (headerBytes planEx ++ topDictBytes accEx planEx ++ accEx.globalSubrs).length ∧
    planEx.offsets.FDArrayOffset =
      (headerBytes planEx ++ topDictBytes accEx planEx ++ accEx.globalSubrs ++
        varStoreBytes accEx ++ fdSelectBytes accEx planEx gEx).length ∧
    planEx.offsets.privateDictsOffset =
      (headerBytes planEx ++ topDictBytes accEx planEx ++ accEx.globalSubrs ++
        varStoreBytes accEx ++ fdSelectBytes accEx planEx gEx ++
        fdArrayBytes accEx planEx ++ charStringsBytes planEx).length :=
  ⟨rfl,
    (plan_offsets_match_writer_cursor accEx gEx planEx rfl).2.2.2.1 [9, 9, 9] rfl,
    (plan_offsets_match_writer_cursor accEx gEx planEx rfl).2.2.2.2.2.1,
    (plan_offsets_match_writer_cursor accEx gEx planEx rfl).2.2.2.2.2.2.2⟩

/-! ## `calcOffSize` minimality -/

lemma calcOffSize_holds (v : Nat) : v < 256 ^ calcOffSize v := by
  induction v using Nat.strong_induction_on with
  | _ v ih =>
    rw [calcOffSize]
    split_ifs with hv
    · simpa using hv
    · have hlt : v / 256 < v := Nat.div_lt_self (by omega) (by norm_num)
      have hrec := ih (v / 256) hlt
      rw [pow_add, pow_one]
      have hdm := Nat.div_add_mod v 256
      have hm : v % 256 < 256 := Nat.mod_lt v (by norm_num)
      have : v < 256 * (v / 256 + 1) := by omega
      calc v < 256 * (v / 256 + 1) := this
        _ ≤ 256 * 256 ^ calcOffSize (v / 256) := by
            exact Nat.mul_le_mul_left 256 hrec
        _ = 256 ^ 1 * 256 ^ calcOffSize (v / 256) := by rw [pow_one]

lemma calcOffSize_min (v : Nat) : ∀ w, 0 < w → v < 256 ^ w → calcOffSize v ≤ w := by
  induction v using Nat.strong_induction_on with
  | _ v ih =>
    intro w hw hvw
    rw [calcOffSize]
    split_ifs with hv
    · exact hw
    · have hlt : v / 256 < v := Nat.div_lt_self (by omega) (by norm_num)
      have hw2 : 2 ≤ w := by
        by_contra hc
        have hw1 : w = 1 := by omega
        subst hw1
        rw [pow_one] at hvw
        omega
      have hdiv : v / 256 < 256 ^ (w - 1) := by
        rw [Nat.div_lt_iff_lt_mul (by norm_num : 0 < 256)]
        calc v < 256 ^ w := hvw
          _ = 256 ^ (w - 1) * 256 := by
              rw [← pow_succ]
              congr 1
              omega
      have := ih (v / 256) hlt (w - 1) (by omega) hdiv
      omega

/-- C9: the width of the output charstring index's offset entries is the
smallest unsigned byte width that can hold `data_size + 1`, where `data_size`
is the sum of the lengths of the retained charstrings, and the charstring
section's size equals index-header size plus offset-array size plus
`data_size`. -/
theorem charstrings_offsize_minimal (acc : Accessor) (glyphs : List Nat)
    (p : Cff2SubsetPlan) (h : cff2SubsetPlanCreate acc glyphs = some p) :
    p.subset_charstrings = glyphs.map (fun g => acc.charStrings.getD g []) ∧
    p.offsets.charStringsOffSize =
      calcOffSize ((p.subset_charstrings.map List.length).sum + 1) ∧
    (p.subset_charstrings.map List.length).sum + 1 <
      256 ^ p.offsets.charStringsOffSize ∧
    (∀ w, 0 < w → (p.subset_charstrings.map List.length).sum + 1 < 256 ^ w →
      p.offsets.charStringsOffSize ≤ w) ∧
    (charStringsBytes p).length =
      indexHeaderSize +
        p.offsets.charStringsOffSize * (p.subset_charstrings.length + 1) +
        (p.subset_charstrings.map List.length).sum := by
  obtain ⟨_, _, _, _, _, _, _, _, _, h10, h11, _⟩ := create_facts acc glyphs p h
  refine ⟨h10, h11, ?_, ?_, ?_⟩
  · rw [h11]
    exact calcOffSize_holds _
  · intro w hw hvw
    rw [h11]
    exact calcOffSize_min _ w hw hvw
  · exact charStringsBytes_length p

/-- Witness for C9 on the concrete scenario (data size 8, so the offset
width is 1 and 9 < 256). -/
theorem charstrings_offsize_minimal_witness :
    planEx.offsets.charStringsOffSize =
      calcOffSize ((planEx.subset_charstrings.map List.length).sum + 1) ∧
    planEx.offsets.charStringsOffSize ≤ 1 :=
  ⟨(charstrings_offsize_minimal accEx gEx planEx rfl).2.1,
    (charstrings_offsize_minimal accEx gEx planEx rfl).2.2.2.1 1 (by norm_num)
      (by decide)⟩

/-- The data region of a serialized index is the concatenation of its items
(shared helper for C3). -/
lemma indexSerialize_data_region (count offSize : Nat) (items : List (List Nat)) :
    (indexSerialize count offSize items).drop
      (indexHeaderSize + offSize * (count + 1)) = items.flatten := by
  unfold indexSerialize
  apply List.drop_left'
  simp only [List.length_append, List.length_cons, List.length_nil, encode4,
    List.length_flatten, List.map_map, length_encodeN, Function.comp_def,
    indexHeaderSize, List.map_const', List.length_range, List.sum_replicate,
    smul_eq_mul]
  ring

/-- C3: for every position `i` of the glyph selection, the byte string the
plan stores at new glyph ID `i` (and the output index's data region) is
byte-for-byte the source charstring of original glyph `glyph_selection[i]`,
and the retained charstrings appear in selection order. -/
theorem charstrings_copied_in_selection_order (acc : Accessor)
    (glyphs : List Nat) (p : Cff2SubsetPlan)
    (h : cff2SubsetPlanCreate acc glyphs = some p) :
    p.subset_charstrings.length = glyphs.length ∧
    (∀ i : Nat, p.subset_charstrings[i]? =
      (glyphs[i]?).map (fun g => acc.charStrings.getD g [])) ∧
    (charStringsBytes p).drop
        (indexHeaderSize +
          p.offsets.charStringsOffSize * (p.subset_charstrings.length + 1)) =
      (glyphs.map (fun g => acc.charStrings.getD g [])).flatten := by
  obtain ⟨_, _, _, _, _, _, _, _, _, h10, _, _⟩ := create_facts acc glyphs p h
  refine ⟨by rw [h10, List.length_map], ?_, ?_⟩
  · intro i
    rw [h10]
    exact List.getElem?_map _ _ _
  · unfold charStringsBytes
    rw [indexSerialize_data_region, h10]

/-- Witness for C3 on the concrete scenario: new glyph 2 carries the source
charstring of original glyph 5. -/
theorem charstrings_copied_in_selection_order_witness :
    planEx.subset_charstrings[2]? = some [6, 6] ∧
    planEx.subset_charstrings[2]? =
      (gEx[2]?).map (fun g => accEx.charStrings.getD g []) :=
  ⟨by decide,
    (charstrings_copied_in_selection_order accEx gEx planEx rfl).2.1 2⟩

/-! ## First-seen remap lemmas (for C4) -/

lemma seenFds_foldl_mem (l acc : List Nat) :
    ∀ x ∈ l.foldl (fun s fd => if fd ∈ s then s else s ++ [fd]) acc,
      x ∈ acc ∨ x ∈ l := by
  induction l generalizing acc with
  | nil => intro x hx; exact Or.inl hx
  | cons a t ih =>
    intro x hx
    rw [List.foldl_cons] at hx
    by_cases ha : a ∈ acc
    · rw [if_pos ha] at hx
      rcases ih acc x hx with hl | hr
      · exact Or.inl hl
      · exact Or.inr (List.mem_cons_of_mem a hr)
    · rw [if_neg ha] at hx
      rcases ih (acc ++ [a]) x hx with hl | hr
      · rcases List.mem_append.mp hl with hl' | hl'
        · exact Or.inl hl'
        · simp at hl'
          exact Or.inr (by simp [hl'])
      · exact Or.inr (List.mem_cons_of_mem a hr)

lemma seenFds_foldl_nodup (l : List Nat) :
    ∀ acc : List Nat, acc.Nodup →
      (l.foldl (fun s fd => if fd ∈ s then s else s ++ [fd]) acc).Nodup := by
  induction l with
  | nil => intro acc h; exact h
  | cons a t ih =>
    intro acc h
    rw [List.foldl_cons]
    by_cases ha : a ∈ acc
    · rw [if_pos ha]
      exact ih acc h
    · rw [if_neg ha]
      refine ih (acc ++ [a]) ?_
      simp [List.nodup_append, h, ha]

lemma seenFds_mem (fds : List Nat) : ∀ x ∈ seenFds fds, x ∈ fds := by
  intro x hx
  rcases seenFds_foldl_mem fds [] x hx with h | h
  · cases h
  · exact h

lemma seenFds_nodup (fds : List Nat) : (seenFds fds).Nodup :=
  seenFds_foldl_nodup fds [] List.nodup_nil

lemma length_le_of_nodup_bounded (l : List Nat) (n : Nat) (hnd : l.Nodup)
    (hlt : ∀ x ∈ l, x < n) : l.length ≤ n := by
  classical
  have hcard : l.toFinset.card = l.length := List.toFinset_card_of_nodup hnd
  have hsub : l.toFinset ⊆ Finset.range n := by
    intro x hx
    exact Finset.mem_range.mpr (hlt x (List.mem_toFinset.mp hx))
  have := Finset.card_le_card hsub
  rw [hcard, Finset.card_range] at this
  exact this

/-- Facts about a successful selector-remap planning step. -/
lemma hb_plan_facts (glyphs : List Nat) (n : Nat) (sel : List Nat)
    (r : FdSelectSubsetPlan)
    (h : hb_plan_subset_cff_fdselect glyphs n sel = some r) :
    (∀ fd ∈ subsetFds glyphs sel, fd < n) ∧
    r.substFdCount = (seenFds (subsetFds glyphs sel)).length := by
  unfold hb_plan_subset_cff_fdselect at h
  dsimp only at h
  split_ifs at h
  all_goals
    try
      (rw [Option.some_inj] at h
       subst h
       exact ⟨by simpa using (by assumption : (subsetFds glyphs sel).all
         (fun fd => decide (fd < n)) = true), rfl⟩)

/-- The counterexample to C4 as stated: a source with two font dicts and no
selector table; plan construction succeeds with `subst_fdcount = 1 ≠ 2 =
orig_fdcount` even though no selector subsetting took place. -/
theorem subst_fdcount_claim_counterexample :
    cff2SubsetPlanCreate accNoSel [0, 1] = some planNoSel ∧
    accNoSel.fdSelect = none ∧
    planNoSel.subst_fdcount = 1 ∧
    planNoSel.orig_fdcount = 2 ∧
    planNoSel.subst_fdcount ≠ planNoSel.orig_fdcount :=
  ⟨rfl, rfl, rfl, rfl, by decide⟩

/-- C4 (amended): when the source has a selector table, a successful plan's
`subst_fdcount` is exactly the number of distinct font dicts the retained
glyphs reference, hence at most `orig_fdcount`, with equality unless selector
subsetting found fewer; when the source has no selector table,
`subst_fdcount` keeps its constructor-initialized value 1 regardless of
`orig_fdcount`. -/
theorem subst_fdcount_amended (acc : Accessor) (glyphs : List Nat)
    (p : Cff2SubsetPlan) (h : cff2SubsetPlanCreate acc glyphs = some p) :
    (acc.fdSelect = none → p.subst_fdcount = 1) ∧
    (∀ sel, acc.fdSelect = some sel →
      p.subst_fdcount = (seenFds (subsetFds glyphs sel.fdFor)).length ∧
      p.subst_fdcount ≤ p.orig_fdcount) := by
  obtain ⟨h1, _, _, _, h5, h6, _⟩ := create_facts acc glyphs p h
  constructor
  · intro hfd
    exact (h5 hfd).2.1
  · intro sel hfd
    obtain ⟨r, hpl, hsubst, _, _, _, _⟩ := h6 sel hfd
    obtain ⟨hall, hcnt⟩ := hb_plan_facts glyphs acc.fontDicts.length sel.fdFor r hpl
    refine ⟨hsubst.trans hcnt, ?_⟩
    rw [hsubst, hcnt, h1]
    exact length_le_of_nodup_bounded _ _ (seenFds_nodup _)
      (fun x hx => hall x (seenFds_mem _ x hx))

/-- Witness for C4's amended statement: the no-selector accessor keeps
`subst_fdcount = 1`, and the spec's concrete scenario has
`subst_fdcount = 3 ≤ 3`. -/
theorem subst_fdcount_amended_witness :
    planNoSel.subst_fdcount = 1 ∧
    planEx.subst_fdcount =
      (seenFds (subsetFds gEx ((accEx.fdSelect.getD ⟨[], []⟩).fdFor))).length ∧
    planEx.subst_fdcount ≤ planEx.orig_fdcount :=
  ⟨(subst_fdcount_amended accNoSel [0, 1] planNoSel rfl).1 rfl,
    ((subst_fdcount_amended accEx gEx planEx rfl).2
      (accEx.fdSelect.getD ⟨[], []⟩) rfl).1,
    ((subst_fdcount_amended accEx gEx planEx rfl).2
      (accEx.fdSelect.getD ⟨[], []⟩) rfl).2⟩

/-! ## Writer inversion lemmas -/

lemma writeCff2_ok_inv (p : Cff2SubsetPlan) (acc : Accessor) (glyphs : List Nat)
    (out : List Nat) (hw : writeCff2 p acc glyphs = Except.ok out) :
    ∃ priv, privateBlockBytes acc p = Except.ok priv ∧
      out = headerBytes p ++ topDictBytes acc p ++ acc.globalSubrs ++
        varStoreBytes acc ++ fdSelectBytes acc p glyphs ++ fdArrayBytes acc p ++
        charStringsBytes p ++ priv := by
  unfold writeCff2 at hw
  cases hpb : privateBlockBytes acc p with
  | error e =>
    rw [hpb] at hw
    simp [Bind.bind, Except.bind] at hw
  | ok priv =>
    rw [hpb] at hw
    simp only [Bind.bind, Except.bind, pure, Except.pure, Except.ok.injEq] at hw
    exact ⟨priv, rfl, hw.symm⟩

lemma privateBlockBytes_ok_inv (acc : Accessor) (p : Cff2SubsetPlan)
    (priv : List Nat) (h : privateBlockBytes acc p = Except.ok priv) :
    priv = ((List.range acc.privateDicts.length).map (privPairWritten acc p)).flatten ∧
    ∀ i ∈ List.range acc.privateDicts.length,
      privatePairBytes acc p i = Except.ok (privPairWritten acc p i) := by
  unfold privateBlockBytes at h
  cases hm : (List.range acc.privateDicts.length).mapM (privatePairBytes acc p) with
  | error e =>
    rw [hm] at h
    simp [Bind.bind, Except.bind] at h
  | ok ys =>
    rw [hm] at h
    simp only [Bind.bind, Except.bind, pure, Except.pure, Except.ok.injEq] at h
    obtain ⟨hys, hall⟩ := mapM_privatePairBytes_ok acc p _ ys hm
    subst hys
    exact ⟨h.symm, hall⟩

lemma getD_mem_privateDicts (acc : Accessor) (i : Nat)
    (hi : i < acc.privateDicts.length) :
    acc.privateDicts.getD i nullPrivDict ∈ acc.privateDicts := by
  rw [List.getD_eq_getElem _ _ hi]
  exact List.getElem_mem hi

lemma privBlock_flatten_length (acc : Accessor) (p : Cff2SubsetPlan) (n : Nat)
    (hall : ∀ i ∈ List.range n,
      (privPairWritten acc p i).length = privPairSize acc i) :
    (((List.range n).map (privPairWritten acc p)).flatten).length =
      privPrefixSum acc n := by
  rw [List.length_flatten, List.map_map]
  unfold privPrefixSum
  refine congrArg List.sum (List.map_congr_left ?_)
  intro i hi
  simpa using hall i hi

lemma create_privateDictInfos (acc : Accessor) (glyphs : List Nat)
    (p : Cff2SubsetPlan) (h : cff2SubsetPlanCreate acc glyphs = some p) :
    p.final_size = p.offsets.privateDictsOffset +
      privPrefixSum acc acc.fontDicts.length ∧
    p.privateDictInfos = (List.range acc.fontDicts.length).map
      (fun i => (⟨p.offsets.privateDictsOffset + privPrefixSum acc i,
        privDictSizeAt acc i⟩ : TableInfo)) := by
  obtain ⟨_, _, _, _, _, _, _, _, _, _, _, _, h13⟩ := create_facts acc glyphs p h
  rw [foldl_privDictStep] at h13
  exact ⟨congrArg Prod.fst h13, congrArg Prod.snd h13⟩

/-- C6: the output's private-dict block contains exactly one (private dict,
optional local-subroutine index) pair per original font-dict slot, contiguous
and in original-index order — including for font dicts excluded from the
remapped font-dict array — and `final_size` accounts for every one of these
pairs. -/
theorem private_block_one_pair_per_original_slot (acc : Accessor)
    (glyphs : List Nat) (p : Cff2SubsetPlan) (out : List Nat)
    (h : cff2SubsetPlanCreate acc glyphs = some p)
    (hlen : acc.privateDicts.length = acc.fontDicts.length)
    (hwf0 : ∀ pd ∈ acc.privateDicts, pd.subrsOffset = 0 → pd.localSubrs = none)
    (hw : writeCff2 p acc glyphs = Except.ok out) :
    p.privateDictInfos.length = p.orig_fdcount ∧
    (∀ i : Nat, i < p.orig_fdcount →
      p.privateDictInfos[i]? =
        some ⟨p.offsets.privateDictsOffset + privPrefixSum acc i,
          privDictSizeAt acc i⟩) ∧
    p.final_size = p.offsets.privateDictsOffset +
      privPrefixSum acc p.orig_fdcount ∧
    out.drop p.offsets.privateDictsOffset =
      ((List.range p.orig_fdcount).map (privPairWritten acc p)).flatten ∧
    out.length = p.final_size := by
  have h1 : p.orig_fdcount = acc.fontDicts.length :=
    (create_facts acc glyphs p h).1
  obtain ⟨hfs, hinfos⟩ := create_privateDictInfos acc glyphs p h
  obtain ⟨priv, hpb, hout⟩ := writeCff2_ok_inv p acc glyphs out hw
  obtain ⟨hpriv, hall⟩ := privateBlockBytes_ok_inv acc p priv hpb
  have hlens : ∀ i ∈ List.range acc.privateDicts.length,
      (privPairWritten acc p i).length = privPairSize acc i := by
    intro i hi
    have hi' : i < acc.privateDicts.length := List.mem_range.mp hi
    have hok := (privatePairBytes_ok_inv acc p i _ (hall i hi)).2
    exact privPairWritten_length acc p i
      (fun hz => hwf0 _ (getD_mem_privateDicts acc i hi') hz) hok
  refine ⟨?_, ?_, ?_, ?_, ?_⟩
  · rw [hinfos, h1]
    simp
  · intro i hi
    rw [hinfos, List.getElem?_map,
      List.getElem?_range (by rw [← h1]; exact hi)]
    rfl
  · rw [hfs, h1]
  · rw [hout, hpriv, hlen, ← h1]
    exact List.drop_left' (writer_prefix_length acc glyphs p h)
  · rw [hout, List.length_append, writer_prefix_length acc glyphs p h, hpriv,
      privBlock_flatten_length acc p _ hlens, hfs, hlen]

/-- Witness for C6 on the concrete scenario (three original font dicts, all
three private-dict pairs present even though the plan retains all dicts). -/
theorem private_block_one_pair_per_original_slot_witness :
    planEx.privateDictInfos.length = planEx.orig_fdcount ∧
    ((writeCff2 planEx accEx gEx).toOption.getD []).length = planEx.final_size :=
  ⟨(private_block_one_pair_per_original_slot accEx gEx planEx
      ((writeCff2 planEx accEx gEx).toOption.getD []) rfl rfl (by decide) rfl).1,
    (private_block_one_pair_per_original_slot accEx gEx planEx
      ((writeCff2 planEx accEx gEx).toOption.getD []) rfl rfl (by decide) rfl).2.2.2.2⟩

lemma decode2_encode2 (v : Nat) (hv : v < 65536) : decode2 (encode2 v) = v := by
  unfold decode2 encode2
  simp only [List.foldl_cons, List.foldl_nil]
  omega

/-- C7: for every font dict, the `Subrs` operator of its private dict (when
present) is re-encoded as a fixed-width 16-bit offset whose embedded value is
the transcoded private dict's own size, so the local-subroutine index begins
exactly at the end of its private dict within the written pair. -/
theorem subrs_offset_equals_private_dict_size (acc : Accessor)
    (glyphs : List Nat) (p : Cff2SubsetPlan)
    (h : cff2SubsetPlanCreate acc glyphs = some p) :
    ∀ i : Nat, i < p.orig_fdcount →
      (p.privateDictInfos.getD i ⟨0, 0⟩).size = privDictSizeAt acc i ∧
      (∀ o ∈ (acc.privateDicts.getD i nullPrivDict).dictOps,
        o.op = OpCode_Subrs →
        privateDictOpSerialize o (p.privateDictInfos.getD i ⟨0, 0⟩).size =
          OpCode_shortint % 256 ::
            (encode2 (privDictSizeAt acc i) ++ [OpCode_Subrs % 256])) ∧
      (privPairWritten acc p i).drop (privDictSizeAt acc i) =
        (if (acc.privateDicts.getD i nullPrivDict).subrsOffset ≠ 0 then
          (acc.privateDicts.getD i nullPrivDict).localSubrs.getD []
        else []) ∧
      (privDictSizeAt acc i < 65536 →
        decode2 (encode2 (privDictSizeAt acc i)) = privDictSizeAt acc i) := by
  have h1 : p.orig_fdcount = acc.fontDicts.length :=
    (create_facts acc glyphs p h).1
  obtain ⟨_, hinfos⟩ := create_privateDictInfos acc glyphs p h
  intro i hi
  have hi' : i < p.privateDictInfos.length := by
    rw [hinfos]
    simp only [List.length_map, List.length_range]
    rw [← h1]
    exact hi
  have hsize : p.privateDictInfos.getD i ⟨0, 0⟩ =
      ⟨p.offsets.privateDictsOffset + privPrefixSum acc i,
        privDictSizeAt acc i⟩ := by
    rw [List.getD_eq_getElem _ _ hi']
    have hi2 : i < acc.fontDicts.length := by rw [← h1]; exact hi
    simp [hinfos, List.getElem_map, List.getElem_range]
  refine ⟨by rw [hsize], ?_, ?_, fun hv => decode2_encode2 _ hv⟩
  · intro o ho hop
    unfold privateDictOpSerialize
    rw [if_pos hop, hsize]
    rfl
  · unfold privPairWritten
    apply List.drop_left'
    rw [dictSerialize_length _ _ _ (fun o _ => privateDictOp_length o _)]
    rfl

/-- Witness for C7 at the first private dict of the concrete scenario (its
`Subrs` operator present, transcoded size 6, local subrs adjacent). -/
theorem subrs_offset_equals_private_dict_size_witness :
    privateDictOpSerialize ⟨OpCode_Subrs, [140, 19]⟩
        (planEx.privateDictInfos.getD 0 ⟨0, 0⟩).size =
      OpCode_shortint % 256 ::
        (encode2 (privDictSizeAt accEx 0) ++ [OpCode_Subrs % 256]) ∧
    (privPairWritten accEx planEx 0).drop (privDictSizeAt accEx 0) =
      (if (accEx.privateDicts.getD 0 nullPrivDict).subrsOffset ≠ 0 then
        (accEx.privateDicts.getD 0 nullPrivDict).localSubrs.getD []
      else []) :=
  ⟨((subrs_offset_equals_private_dict_size accEx gEx planEx rfl 0
      (by decide)).2.1 ⟨OpCode_Subrs, [140, 19]⟩ (by decide) rfl),
    (subrs_offset_equals_private_dict_size accEx gEx planEx rfl 0
      (by decide)).2.2.1⟩

/-- C10: a private dict recording a nonzero local-subroutine offset whose
local subroutine index is absent in the source accessor makes the table
writer fail rather than emit a dangling `Subrs` reference; on success every
pair's bytes include the local-subroutine index exactly when the source
offset is nonzero (the shape of `privPairWritten`). -/
theorem writer_rejects_dangling_subrs (acc : Accessor) (glyphs : List Nat)
    (p : Cff2SubsetPlan) :
    ((∃ i, i < acc.privateDicts.length ∧
        (acc.privateDicts.getD i nullPrivDict).subrsOffset ≠ 0 ∧
        (acc.privateDicts.getD i nullPrivDict).localSubrs = none) →
      ∀ out, writeCff2 p acc glyphs ≠ Except.ok out) ∧
    (∀ out, writeCff2 p acc glyphs = Except.ok out →
      ∀ i : Nat, i < acc.privateDicts.length →
        privatePairBytes acc p i = Except.ok (privPairWritten acc p i)) := by
  constructor
  · rintro ⟨i, hi, hz, hn⟩ out hw
    obtain ⟨priv, hpb, _⟩ := writeCff2_ok_inv p acc glyphs out hw
    obtain ⟨_, hall⟩ := privateBlockBytes_ok_inv acc p priv hpb
    exact (privatePairBytes_ok_inv acc p i _
      (hall i (List.mem_range.mpr hi))).2 ⟨hz, hn⟩
  · intro out hw i hi
    obtain ⟨priv, hpb, _⟩ := writeCff2_ok_inv p acc glyphs out hw
    obtain ⟨_, hall⟩ := privateBlockBytes_ok_inv acc p priv hpb
    exact hall i (List.mem_range.mpr hi)

/-- Witness for C10: the accessor whose first private dict records offset 3
with no local subrs makes the writer fail. -/
theorem writer_rejects_dangling_subrs_witness :
    writeCff2 planBad accBad [0, 1] ≠ Except.ok [] :=
  (writer_rejects_dangling_subrs accBad [0, 1] planBad).1
    ⟨0, by decide, by decide, rfl⟩ []

/-- C8 (evaluation at the failing input): when the output-buffer allocation
fails, the driver does not report failure — it hands the null buffer to the
writer, whose first header store dereferences it (`calloc` at line 438 is
unchecked) — whereas plan-construction failure and write failure do report
failure with no blob. -/
theorem driver_alloc_failure_not_reported :
    hbSubsetCff2 accEx gEx false = SubsetOutcome.nullDeref ∧
    SubsetOutcome.nullDeref ≠ SubsetOutcome.fail ∧
    hbSubsetCff2 accPlanFail gSub true = SubsetOutcome.fail ∧
    hbSubsetCff2 accBad [0, 1] true = SubsetOutcome.fail :=
  ⟨rfl, by decide, rfl, rfl⟩

end CFF2Subset
